import Mathlib

/-!
Verification development for the OrpheusDL-Container list UI server
(`list_ui_server.py`).  The Python source is shallowly embedded: strings are
`String`/`List Char`, filesystem trees are an inductive type, the SQLite-backed
entry store is a per-kind list of rows (the tables order rows by
`created_at, rowid`, i.e. insertion order), and the asynchronous mailbox is a
list of published `(message, isError)` pairs.  Messages built by Python
f-strings are embedded as structured inductive values carrying the same data.
-/

namespace OrpheusDL

/-- Python `str.strip()` on a character list: drop whitespace from both ends. -/
def pyStrip (s : List Char) : List Char :=
  ((s.dropWhile Char.isWhitespace).reverse.dropWhile Char.isWhitespace).reverse

/-- `str.strip()` at `String` level. -/
def pyStripS (s : String) : String :=
  ⟨pyStrip s.data⟩

/-- Python `s.startswith(pre)` on character lists. -/
def startsWithL (pre s : List Char) : Bool :=
  pre.isPrefixOf s

/-- Python `pat in s` (contiguous substring test) on character lists. -/
def containsL (s pat : List Char) : Bool :=
  decide (pat <:+: s)

/-- `_normalize_photo_identifier` from `list_ui_server.py`: returns `none` when
the raw identifier is empty, strips it, and rejects a stripped value that is
empty, starts with a dot, or contains a slash, a backslash, or a double dot;
otherwise returns the stripped value. -/
def normalizePhotoIdentifier (identifier : String) : Option String :=
  if identifier.data = [] then none
  else
    let normalized := pyStrip identifier.data
    if normalized = [] then none
    else if startsWithL ['.'] normalized ||
        containsL normalized ['/'] ||
        containsL normalized ['\\'] ||
        containsL normalized ['.', '.'] then none
    else some ⟨normalized⟩

/-- `_normalize_name_for_match`: NFKD-normalize, drop combining marks,
casefold, and keep only alphanumeric characters.  The embedding models the
Unicode steps for the NFKD-invariant, combining-free characters the
development evaluates on (ASCII): the NFKD/combining pipeline is the identity,
casefold is `Char.toLower`, and `str.isalnum` is `Char.isAlphanum`. -/
def normalizeNameForMatch (value : List Char) : List Char :=
  if value = [] then []
  else (value.map Char.toLower).filter Char.isAlphanum

/-- `_name_matches`: both names are normalized; an empty normalized form on
either side is no match, otherwise the normalized pattern must occur as a
substring of the normalized candidate. -/
def nameMatches (candidate pattern : String) : Bool :=
  let candidateNorm := normalizeNameForMatch candidate.data
  let patternNorm := normalizeNameForMatch pattern.data
  if candidateNorm = [] || patternNorm = [] then false
  else containsL candidateNorm patternNorm

/-- `_artist_photo_key`: the artist cache key is the normalized artist id. -/
def artistPhotoKey (artistId : String) : Option String :=
  normalizePhotoIdentifier artistId

/-- `_album_photo_key`: normalize the album id, then normalize it again with
the literal `album_` prefix attached. -/
def albumPhotoKey (albumId : String) : Option String :=
  match normalizePhotoIdentifier albumId with
  | none => none
  | some normalized => normalizePhotoIdentifier ⟨"album_".data ++ normalized.data⟩

/-!
## Paths

A filesystem path is a list of name components from the filesystem root.
`pathlib` drops empty and `.` segments when parsing, and `resolve(strict=False)`
additionally eliminates `..` segments lexically (no symlinks in the model).
`Path.relative_to` succeeds exactly when the components of the base are a prefix of
the components of the target.
-/

/-- Split a character list at `/` boundaries. -/
def splitSlashAux (cur : List Char) : List Char → List (List Char)
  | [] => [cur.reverse]
  | c :: rest =>
      if c = '/' then cur.reverse :: splitSlashAux [] rest
      else splitSlashAux (c :: cur) rest

/-- Split a string on `/`, dropping empty and `.` segments as `pathlib` does
when parsing a path. -/
def splitSlash (s : String) : List String :=
  ((splitSlashAux [] s.data).map (fun c => (⟨c⟩ : String))).filter
    (fun c => c ≠ "" && c ≠ ".")

/-- `Path(base) / name`: a name starting with `/` replaces the base. -/
def joinName (base : List String) (name : String) : List String :=
  if startsWithL ['/'] name.data then splitSlash name
  else base ++ splitSlash name

/-- Lexical `resolve(strict=False)`: process components left to right, `..`
pops the last resolved component, `.` disappears. -/
def resolvePath (p : List String) : List String :=
  p.foldl
    (fun acc c =>
      if c = "." then acc else if c = ".." then acc.dropLast else acc ++ [c])
    []

/-- `_is_within_music_dir`: resolve both the music root and the candidate and
require the resolved root to be a components-prefix of the resolved candidate
(this is `Path.relative_to`, which also succeeds on equality). -/
def isWithinMusicDir (musicDir path : List String) : Bool :=
  (resolvePath musicDir).isPrefixOf (resolvePath path)

/-- Outcome of `_delete_artist_directory`.  The function itself only logs; the
outcome records which branch ran and, for a deletion, which path was removed. -/
inductive ArtistCleanup where
  | emptyName : ArtistCleanup
  | refusedOutside : ArtistCleanup
  | refusedBase : ArtistCleanup
  | deleted (path : List String) : ArtistCleanup
deriving DecidableEq, Repr

/-- `_delete_artist_directory`: strip the artist name (empty → no-op), resolve
`MUSIC_DIR / name` and `MUSIC_DIR`, refuse when `relative_to` fails, refuse
when the resolved target equals the resolved base, otherwise delete
`MUSIC_DIR / name`.  Filesystem errors during the actual deletion are logged
and ignored, so the decision below is the whole observable behaviour. -/
def deleteArtistDirectory (musicDir : List String) (artistName : String) :
    ArtistCleanup :=
  let name := pyStripS artistName
  if name = "" then .emptyName
  else
    let baseResolved := resolvePath musicDir
    let target := resolvePath (joinName musicDir name)
    if ¬ baseResolved.isPrefixOf target then .refusedOutside
    else if target = baseResolved then .refusedBase
    else .deleted (joinName musicDir name)

/-!
## Filesystem model

The media root (`MUSIC_DIR`) is a directory whose contents are a list of
`FsEntry` trees; paths below it are lists of entry names.  There are no
symlinks, duplicate names, or I/O failures in the model: `shutil.rmtree` and
`Path.unlink` always succeed (the Python code logs a warning on such failures),
and `iterdir`/`rglob` enumerate in the list order of the tree.
-/

/-- A directory entry: a named directory with children, or a named file. -/
inductive FsEntry where
  | dir (name : String) (children : List FsEntry) : FsEntry
  | file (name : String) : FsEntry

/-- The name of an entry. -/
def FsEntry.name : FsEntry → String
  | .dir n _ => n
  | .file n => n

/-- `Path.is_dir` for an entry of the tree. -/
def FsEntry.isDir : FsEntry → Bool
  | .dir _ _ => true
  | .file _ => false

/-- Look up the entry at a (non-empty) relative path below the music root. -/
def lookupPath (children : List FsEntry) : List String → Option FsEntry
  | [] => none
  | [n] => children.find? (fun c => c.name == n)
  | n :: rest =>
      match children.find? (fun c => c.name == n) with
      | some (.dir _ cs) => lookupPath cs rest
      | _ => none

/-- The children of the directory at a relative path (`[]` is the music root
itself); `none` when the path is missing or is a file. -/
def childrenAt (root : List FsEntry) : List String → Option (List FsEntry)
  | [] => some root
  | n :: rest =>
      match lookupPath root (n :: rest) with
      | some (.dir _ cs) => some cs
      | _ => none

/-- Delete the entry at a relative path (file or whole directory tree);
missing paths are left untouched, matching the tolerance of the code for
`FileNotFoundError`. -/
def removeRel (root : List FsEntry) : List String → List FsEntry
  | [] => root
  | [n] => root.filter (fun c => c.name != n)
  | n :: rest =>
      root.map (fun c =>
        match c with
        | .dir m cs => if m == n then .dir m (removeRel cs rest) else .dir m cs
        | .file m => .file m)

/-- `AUDIO_FILE_EXTENSIONS` from `list_ui_server.py`. -/
def audioFileExtensions : List String :=
  [".flac", ".mp3", ".aac", ".m4a", ".m4b", ".ogg", ".opus", ".wav", ".aiff",
   ".aif", ".alac", ".dsf", ".dff", ".wv", ".ape", ".wma", ".mka", ".mp2"]

/-- Index of the last `.` in a name, if any. -/
def lastDotIndex (l : List Char) : Option Nat :=
  (List.range l.length).foldl
    (fun acc i => if l.get? i == some '.' then some i else acc) none

/-- `PurePath.suffix`: the part of the name from its last dot on, provided
that dot is neither the leading nor the trailing character. -/
def fileSuffix (name : String) : String :=
  match lastDotIndex name.data with
  | some i =>
      if 0 < i && i + 1 < name.data.length then ⟨name.data.drop i⟩ else ""
  | none => ""

/-- `PurePath.stem`: the name with its `fileSuffix` removed. -/
def fileStem (name : String) : String :=
  match lastDotIndex name.data with
  | some i =>
      if 0 < i && i + 1 < name.data.length then ⟨name.data.take i⟩ else name
  | none => name

/-- Python `str.lower()` in the model (ASCII-faithful). -/
def lowerS (s : String) : String :=
  ⟨s.data.map Char.toLower⟩

/-- `path.suffix.lower() in AUDIO_FILE_EXTENSIONS`. -/
def isAudioFileName (name : String) : Bool :=
  audioFileExtensions.contains (lowerS (fileSuffix name))

/-- The per-file test of `_find_track_files`: an audio extension, a non-empty
normalized stem, and the normalized track title occurring in the stem. -/
def trackFileMatches (name : String) (normalizedTrack : List Char) : Bool :=
  isAudioFileName name &&
    (let stemNorm := normalizeNameForMatch (fileStem name).data
     !stemNorm.isEmpty && containsL stemNorm normalizedTrack)

mutual

/-- `rglob` half of `_find_track_files`, on one entry. -/
def collectTrackEntry (pre : List String) (nt : List Char) :
    FsEntry → List (List String)
  | .file n => if trackFileMatches n nt then [pre ++ [n]] else []
  | .dir n cs => collectTrackList (pre ++ [n]) nt cs

/-- `rglob` half of `_find_track_files`, on a list of entries. -/
def collectTrackList (pre : List String) (nt : List Char) :
    List FsEntry → List (List String)
  | [] => []
  | c :: rest => collectTrackEntry pre nt c ++ collectTrackList pre nt rest

end

/-- `_find_track_files`: empty title, missing album directory, or a title
normalizing to nothing give no matches; otherwise collect every audio file
under the album directory whose stem matches. -/
def findTrackFiles (root : List FsEntry) (albumDir : List String)
    (trackTitle : String) : List (List String) :=
  if trackTitle = "" then []
  else
    match childrenAt root albumDir with
    | none => []
    | some cs =>
        let nt := normalizeNameForMatch trackTitle.data
        if nt = [] then [] else collectTrackList albumDir nt cs

mutual

/-- `_album_has_audio_files` recursion, on one entry. -/
def entryHasAudio : FsEntry → Bool
  | .file n => isAudioFileName n
  | .dir _ cs => listHasAudio cs

/-- `_album_has_audio_files` recursion, on a list of entries. -/
def listHasAudio : List FsEntry → Bool
  | [] => false
  | c :: rest => entryHasAudio c || listHasAudio rest

end

/-- `_album_has_audio_files` for the directory at a relative path. -/
def albumHasAudioFiles (root : List FsEntry) (albumDir : List String) : Bool :=
  match childrenAt root albumDir with
  | some cs => listHasAudio cs
  | none => false

/-- `_candidate_artist_directories`: the child directories of the music root whose
name fuzzily matches the artist (all of them when the artist name is empty),
plus `MUSIC_DIR / artist_name` when that is a directory not already listed.
For an empty artist name that direct path is the music root itself. -/
def candidateArtistDirectories (root : List FsEntry) (artistName : String) :
    List (List String) :=
  let scanned :=
    (root.filter
        (fun c => c.isDir && (artistName == "" || nameMatches c.name artistName))).map
      (fun c => [c.name])
  let direct := joinName [] artistName
  if (childrenAt root direct).isSome && !(scanned.contains direct) then
    scanned ++ [direct]
  else scanned

/-- The contribution of one candidate directory in `_find_album_directories`: add
each child directory fuzzily matching the album title, skipping candidates
whose resolved path was already collected (the `seen` set). -/
def albumScanStep (root : List FsEntry) (albumTitle : String)
    (acc : List (List String)) (dirPath : List String) : List (List String) :=
  match childrenAt root dirPath with
  | none => acc
  | some cs =>
      cs.foldl
        (fun acc2 child =>
          match child with
          | .dir n _ =>
              if nameMatches n albumTitle then
                if acc2.any
                    (fun q => resolvePath q == resolvePath (dirPath ++ [n])) then
                  acc2
                else acc2 ++ [dirPath ++ [n]]
              else acc2
          | .file _ => acc2)
        acc

/-- `_find_album_directories`: scan each candidate artist directory (falling
back to the whole music root when there are no candidates) for child
directories fuzzily matching the album title, deduplicating by resolved
path. -/
def findAlbumDirectories (root : List FsEntry) (artistName albumTitle : String) :
    List (List String) :=
  if albumTitle = "" then []
  else
    (if (candidateArtistDirectories root artistName).isEmpty then
      [([] : List String)]
    else candidateArtistDirectories root artistName).foldl
      (albumScanStep root albumTitle) []

/-- The warnings the media cleaner can push to the mailbox, as structured
values carrying the data the Python f-strings interpolate. -/
inductive CleanupMsg where
  | multipleAlbumFolders (albumTitle : String)
  | albumOutsideMusicDir (path : List String)
  | multipleAlbumFoldersForTrack (albumTitle : String)
  | trackOutsideMusicDir (path : List String)
  | multipleTrackFiles (trackTitle : String)
deriving DecidableEq, Repr

/-- Result of a media-cleanup attempt: the boolean the Python function
returns, the `(message, is_error)` pairs it reports, and the contents of the music
root afterwards. -/
structure CleanupResult where
  ok : Bool
  messages : List (CleanupMsg × Bool)
  fs : List FsEntry

/-- `_remove_album_media`: no match is success with nothing deleted; several
matches refuse with an error message naming the album; a single match is
deleted after the containment check (refusing with an error message when the
check fails). -/
def removeAlbumMedia (musicDir : List String) (root : List FsEntry)
    (artistName albumTitle : String) : CleanupResult :=
  match findAlbumDirectories root artistName albumTitle with
  | [] => ⟨true, [], root⟩
  | [d] =>
      if isWithinMusicDir musicDir (musicDir ++ d) then ⟨true, [], removeRel root d⟩
      else ⟨false, [(.albumOutsideMusicDir d, true)], root⟩
  | _ :: _ :: _ => ⟨false, [(.multipleAlbumFolders albumTitle, true)], root⟩

/-- `_remove_track_media`: narrow to a single album directory as for albums,
then find matching track files inside it; no file is success, several files
refuse, a single file is deleted, after which an album directory left with no
audio files is deleted too. -/
def removeTrackMedia (musicDir : List String) (root : List FsEntry)
    (artistName albumTitle trackTitle : String) : CleanupResult :=
  match findAlbumDirectories root artistName albumTitle with
  | [] => ⟨true, [], root⟩
  | [d] =>
      if isWithinMusicDir musicDir (musicDir ++ d) then
        match findTrackFiles root d trackTitle with
        | [] => ⟨true, [], root⟩
        | [f] =>
            let fs1 := removeRel root f
            if albumHasAudioFiles fs1 d then ⟨true, [], fs1⟩
            else ⟨true, [], removeRel fs1 d⟩
        | _ :: _ :: _ => ⟨false, [(.multipleTrackFiles trackTitle, true)], root⟩
      else ⟨false, [(.trackOutsideMusicDir d, true)], root⟩
  | _ :: _ :: _ =>
      ⟨false, [(.multipleAlbumFoldersForTrack albumTitle, true)], root⟩

/-!
## Entry store, job triggers, and fetch jobs

The SQLite tables `artists`, `albums`, `tracks` enumerate rows ordered by
`created_at, rowid`, i.e. insertion order, so each table is a Lean list with
insertion at the tail.  The read path strips every column (`str(value or
"").strip()`), which `remove_entry` also does before acting on a row.  A
SQLite `LIMIT 1 OFFSET ?` with a negative bound behaves as `OFFSET 0`, which
`sqlOffset` records.
-/

/-- A row of the `artists` table (fields the code reads). -/
structure ArtistRow where
  id : String
  name : String
deriving DecidableEq, Repr

/-- A row of the `albums` table (fields the code reads). -/
structure AlbumRow where
  id : String
  title : String
  artist : String
deriving DecidableEq, Repr

/-- A row of the `tracks` table (fields the code reads). -/
structure TrackRow where
  id : String
  title : String
  artist : String
  album : String
deriving DecidableEq, Repr

/-- The three tables of the entry store, each in insertion order. -/
structure Store where
  artists : List ArtistRow
  albums : List AlbumRow
  tracks : List TrackRow
deriving DecidableEq, Repr

/-- The three entry kinds of `LIST_LABELS`. -/
inductive Kind where
  | artist
  | album
  | track
deriving DecidableEq, Repr

/-- The message `add_entry` returns, as structured data. -/
inductive AddMsg where
  | emptyValue
  | alreadyPresent (kind : Kind)
  | added (kind : Kind) (label : String)
deriving DecidableEq, Repr

/-- `add_entry`: strip the id (empty is rejected), fail with
`already present` when a row with that id exists for the kind, otherwise
append a row built from the stripped metadata fields. -/
def addEntry (st : Store) (kind : Kind) (value : String)
    (displayName artistName albumTitle : String) : Bool × AddMsg × Store :=
  let v := pyStripS value
  if v = "" then (false, .emptyValue, st)
  else
    match kind with
    | .artist =>
        if st.artists.any (fun r => r.id == v) then
          (false, .alreadyPresent .artist, st)
        else
          let label := if pyStripS displayName = "" then v else pyStripS displayName
          (true, .added .artist label,
            { st with artists := st.artists ++ [⟨v, label⟩] })
    | .album =>
        if st.albums.any (fun r => r.id == v) then
          (false, .alreadyPresent .album, st)
        else
          let title := pyStripS displayName
          let artist := pyStripS artistName
          (true, .added .album (if title = "" then v else title),
            { st with albums := st.albums ++ [⟨v, title, artist⟩] })
    | .track =>
        if st.tracks.any (fun r => r.id == v) then
          (false, .alreadyPresent .track, st)
        else
          let title := pyStripS displayName
          let artist := pyStripS artistName
          let album := pyStripS albumTitle
          (true, .added .track (if title = "" then v else title),
            { st with tracks := st.tracks ++ [⟨v, title, artist, album⟩] })

/-- The asynchronous mailbox messages the job pipeline can publish, as
structured values carrying the data the Python f-strings interpolate. -/
inductive AsyncMsg where
  | artistLaunchFailed (artistId : String) (err : String)
  | artistExitFailed (artistId : String) (code : Int)
  | artistCompleted (artistId : String)
  | downloadLaunchFailed (kind : Kind) (value : String) (err : String)
  | downloadExitFailed (kind : Kind) (value : String) (code : Int)
  | entryIgnoredHash (kind : Kind) (value : String)
deriving DecidableEq, Repr

/-- Outcome of launching the external fetch command. -/
inductive ExitOutcome where
  | exited (code : Int)
  | launchFailure (err : String)
deriving DecidableEq, Repr

/-- `_run_artist_download`: the `(message, is_error)` pairs pushed to the
mailbox for a given subprocess outcome. -/
def runArtistDownload (artistId : String) (outcome : ExitOutcome) :
    List (AsyncMsg × Bool) :=
  match outcome with
  | .launchFailure err => [(.artistLaunchFailed artistId err, true)]
  | .exited code =>
      if code != 0 then [(.artistExitFailed artistId code, true)]
      else [(.artistCompleted artistId, false)]

/-- `_run_download` (album and track jobs): the `(message, is_error)` pairs
pushed to the mailbox for a given subprocess outcome.  The success branch
only logs. -/
def runDownload (kind : Kind) (value : String) (outcome : ExitOutcome) :
    List (AsyncMsg × Bool) :=
  match outcome with
  | .launchFailure err => [(.downloadLaunchFailed kind value err, true)]
  | .exited code =>
      if code != 0 then [(.downloadExitFailed kind value code, true)] else []

/-- `sanitize_entry_value`: strip, rejecting an empty result or one starting
with `#`. -/
def sanitizeEntryValue (value : String) : Option String :=
  let sanitized := pyStripS value
  if sanitized = "" || startsWithL ['#'] sanitized.data then none
  else some sanitized

/-- What a `_trigger_*` call does: the jobs it enqueues (kind plus sanitized
value) and the messages it publishes immediately. -/
structure TriggerResult where
  queued : List (Kind × String)
  published : List (AsyncMsg × Bool)
deriving DecidableEq, Repr

/-- `_trigger_artist_download`: a value failing sanitization only logs a
warning; otherwise queue the artist job. -/
def triggerArtistDownload (artistId : String) : TriggerResult :=
  match sanitizeEntryValue artistId with
  | none => ⟨[], []⟩
  | some s => ⟨[(.artist, s)], []⟩

/-- `_trigger_download` (album/track): a value failing sanitization queues
nothing, and publishes an informational message only when the raw value
starts with `#`; otherwise queue the job. -/
def triggerDownload (kind : Kind) (value : String) : TriggerResult :=
  match sanitizeEntryValue value with
  | none =>
      if startsWithL ['#'] value.data then
        ⟨[], [(.entryIgnoredHash kind value, false)]⟩
      else ⟨[], []⟩
  | some s => ⟨[(kind, s)], []⟩

/-- A SQLite `LIMIT 1 OFFSET ?` bound: a negative offset behaves as zero. -/
def sqlOffset (index : Int) : Nat :=
  if index < 0 then 0 else index.toNat

/-- The message `remove_entry` returns, as structured data.
`cleanupBlocked none` is the fallback `... removal skipped.` text, and
`cleanupBlocked (some m)` the first cleanup warning. -/
inductive RemoveMsg where
  | notFound
  | removed (kind : Kind) (label : String)
  | cleanupBlocked (primary : Option CleanupMsg)
deriving DecidableEq, Repr

/-- Result of `remove_entry`: the returned boolean and message, the store and
music-root contents afterwards, and the cleanup messages pushed to the
mailbox. -/
structure RemoveResult where
  ok : Bool
  msg : RemoveMsg
  store : Store
  fs : List FsEntry
  published : List (CleanupMsg × Bool)

/-- Apply a deletion of an absolute path to the modeled music tree (paths
outside the music root leave the model unchanged). -/
def removeAbs (musicDir : List String) (fs : List FsEntry) (p : List String) :
    List FsEntry :=
  if musicDir.isPrefixOf p then removeRel fs (p.drop musicDir.length) else fs

/-- `remove_entry`: select the row at the ordinal offset in the ordering of the
kind (`none` → `Entry not found.`).  The artist branch deletes the row
first and then runs the best-effort directory cleanup.  The album and track
branches run the media cleanup first, push its messages, and only delete the
row when the cleanup reported success. -/
def removeEntry (musicDir : List String) (st : Store) (fs : List FsEntry)
    (kind : Kind) (index : Int) : RemoveResult :=
  match kind with
  | .artist =>
      match st.artists[sqlOffset index]? with
      | none => ⟨false, .notFound, st, fs, []⟩
      | some row =>
          let st1 := { st with artists := st.artists.eraseIdx (sqlOffset index) }
          let artistName := pyStripS row.name
          let fs1 :=
            if artistName != "" then
              match deleteArtistDirectory musicDir artistName with
              | .deleted p => removeAbs musicDir fs p
              | _ => fs
            else fs
          let label := if artistName != "" then artistName else pyStripS row.id
          ⟨true, .removed .artist label, st1, fs1, []⟩
  | .album =>
      match st.albums[sqlOffset index]? with
      | none => ⟨false, .notFound, st, fs, []⟩
      | some row =>
          let cleanup :=
            removeAlbumMedia musicDir fs (pyStripS row.artist) (pyStripS row.title)
          if cleanup.ok then
            let st1 := { st with albums := st.albums.eraseIdx (sqlOffset index) }
            let title := pyStripS row.title
            let label := if title != "" then title else pyStripS row.id
            ⟨true, .removed .album label, st1, cleanup.fs, cleanup.messages⟩
          else
            ⟨false, .cleanupBlocked (cleanup.messages.head?.map Prod.fst), st,
              cleanup.fs, cleanup.messages⟩
  | .track =>
      match st.tracks[sqlOffset index]? with
      | none => ⟨false, .notFound, st, fs, []⟩
      | some row =>
          let cleanup :=
            removeTrackMedia musicDir fs (pyStripS row.artist)
              (pyStripS row.album) (pyStripS row.title)
          if cleanup.ok then
            let st1 := { st with tracks := st.tracks.eraseIdx (sqlOffset index) }
            let title := pyStripS row.title
            let label := if title != "" then title else pyStripS row.id
            ⟨true, .removed .track label, st1, cleanup.fs, cleanup.messages⟩
          else
            ⟨false, .cleanupBlocked (cleanup.messages.head?.map Prod.fst), st,
              cleanup.fs, cleanup.messages⟩

/-- Number of rows of a kind carrying a given id (ids are unique per kind in
the SQLite schema; the model states uniqueness through this count). -/
def countId (st : Store) (kind : Kind) (v : String) : Nat :=
  match kind with
  | .artist => (st.artists.filter (fun r => r.id == v)).length
  | .album => (st.albums.filter (fun r => r.id == v)).length
  | .track => (st.tracks.filter (fun r => r.id == v)).length

/-!
## Helper lemmas
-/

/-- A list none of whose elements satisfies `p` filters to the empty list. -/
theorem filter_eq_nil_of_any_eq_false {α : Type} (p : α → Bool) (l : List α)
    (h : l.any p = false) : l.filter p = [] := by
  induction l with
  | nil => rfl
  | cons a t ih =>
      simp only [List.any_cons, Bool.or_eq_false_iff] at h
      simp [List.filter_cons, h.1, ih h.2]

/-- A fold whose step never changes the accumulator returns it unchanged. -/
theorem foldl_fixed {α β : Type} (f : β → α → β) (l : List α) (acc : β)
    (h : ∀ b a, a ∈ l → f b a = b) : l.foldl f acc = acc := by
  induction l generalizing acc with
  | nil => rfl
  | cons a t ih =>
      rw [List.foldl_cons, h acc a (List.mem_cons_self a t)]
      exact ih acc fun b x hx => h b x (List.mem_cons_of_mem _ hx)

/-- `isPrefixOf` holds reflexively. -/
theorem isPrefixOf_self {α : Type} [DecidableEq α] (l : List α) :
    l.isPrefixOf l = true := by
  induction l with
  | nil => rfl
  | cons a t ih => simp [List.isPrefixOf, ih]

/-- `isPrefixOf` holds for a list and its extension. -/
theorem isPrefixOf_append_self {α : Type} [DecidableEq α] (l m : List α) :
    l.isPrefixOf (l ++ m) = true := by
  induction l with
  | nil => simp [List.isPrefixOf]
  | cons a t ih => simp [List.isPrefixOf, ih]

/-- The head surviving `dropWhile` fails the predicate. -/
theorem head_dropWhile_false {α : Type} (p : α → Bool) (l : List α) (a : α)
    (h : (l.dropWhile p).head? = some a) : p a = false := by
  induction l with
  | nil => rw [List.dropWhile_nil] at h; exact absurd h (by simp)
  | cons b t ih =>
      rw [List.dropWhile_cons] at h
      cases hb : p b with
      | true => rw [hb] at h; simp only [if_true] at h; exact ih h
      | false =>
          rw [hb] at h
          simp only [Bool.false_eq_true, if_false, List.head?_cons,
            Option.some.injEq] at h
          subst h
          exact hb

/-- `dropWhile` keeps everything from the first failing element on. -/
theorem dropWhile_append_keep {α : Type} (p : α → Bool) (c : α)
    (hc : p c = false) (u w : List α) :
    ∃ u2, (u ++ c :: w).dropWhile p = u2 ++ c :: w := by
  induction u with
  | nil => exact ⟨[], by simp [List.dropWhile_cons, hc]⟩
  | cons b t ih =>
      by_cases hb : p b = true
      · obtain ⟨u2, hu2⟩ := ih
        exact ⟨u2, by simp [List.dropWhile_cons, hb, hu2]⟩
      · exact ⟨b :: t, by simp [List.dropWhile_cons, hb]⟩

/-- A member failing the predicate survives `dropWhile`. -/
theorem mem_dropWhile_of_mem {α : Type} (p : α → Bool) (l : List α) (a : α)
    (ha : a ∈ l) (hp : p a = false) : a ∈ l.dropWhile p := by
  induction l with
  | nil => cases ha
  | cons b t ih =>
      rw [List.dropWhile_cons]
      by_cases hb : p b = true
      · simp only [hb, if_pos]
        rcases List.mem_cons.mp ha with h | h
        · subst h; rw [hp] at hb; cases hb
        · exact ih h
      · simp [hb, ha]

/-- A non-whitespace member of a list survives Python stripping. -/
theorem mem_pyStrip_of_mem (l : List Char) (a : Char) (ha : a ∈ l)
    (hp : Char.isWhitespace a = false) : a ∈ pyStrip l := by
  unfold pyStrip
  rw [List.mem_reverse]
  apply mem_dropWhile_of_mem _ _ _ _ hp
  rw [List.mem_reverse]
  exact mem_dropWhile_of_mem _ _ _ ha hp

/-- Python stripping keeps a non-whitespace head in place. -/
theorem pyStrip_cons_of_not_ws (c : Char) (t : List Char)
    (hc : Char.isWhitespace c = false) :
    ∃ t2, pyStrip (c :: t) = c :: t2 := by
  unfold pyStrip
  have h1 : List.dropWhile Char.isWhitespace (c :: t) = c :: t := by
    simp [List.dropWhile_cons, hc]
  rw [h1]
  have h2 : (c :: t).reverse = t.reverse ++ c :: [] := by simp
  rw [h2]
  obtain ⟨u2, hu2⟩ := dropWhile_append_keep Char.isWhitespace c hc t.reverse []
  rw [hu2]
  exact ⟨u2.reverse, by simp⟩

/-- Python stripping keeps a two-character substring whose characters are not
whitespace. -/
theorem pyStrip_keeps_pair (c : Char) (hc : Char.isWhitespace c = false)
    (l : List Char) (h : [c, c] <:+: l) : [c, c] <:+: pyStrip l := by
  obtain ⟨u, v, huv⟩ := h
  unfold pyStrip
  subst huv
  have hshape : u ++ [c, c] ++ v = u ++ c :: (c :: v) := by simp
  rw [hshape]
  obtain ⟨u2, hu2⟩ := dropWhile_append_keep Char.isWhitespace c hc u (c :: v)
  rw [hu2]
  have hshape2 : (u2 ++ c :: c :: v).reverse = v.reverse ++ c :: (c :: u2.reverse) := by
    simp
  rw [hshape2]
  obtain ⟨v2, hv2⟩ := dropWhile_append_keep Char.isWhitespace c hc v.reverse
    (c :: u2.reverse)
  rw [hv2]
  refine ⟨u2, v2.reverse, ?_⟩
  simp

/-- `containsL` with a singleton pattern is membership. -/
theorem containsL_singleton (l : List Char) (c : Char) :
    containsL l [c] = true ↔ c ∈ l := by
  unfold containsL
  rw [decide_eq_true_iff]
  constructor
  · rintro ⟨u, v, huv⟩
    subst huv
    simp
  · intro hm
    obtain ⟨u, v, huv⟩ := List.append_of_mem hm
    exact ⟨u, v, by simp [huv]⟩

/-- `containsL` from an infix decomposition. -/
theorem containsL_of_infix (l pat : List Char) (h : pat <:+: l) :
    containsL l pat = true := by
  unfold containsL
  exact decide_eq_true h

/-- The last element of a reversed list is the head of the original. -/
theorem getLast_of_rev {α : Type} (l : List α) :
    l.reverse.getLast? = l.head? := by
  cases l with
  | nil => rfl
  | cons a t => rw [List.reverse_cons, List.getLast?_concat, List.head?_cons]

/-- A fuzzy match fails whenever either side normalizes to nothing. -/
theorem nameMatches_of_empty_norm (candidate pattern : String)
    (h : normalizeNameForMatch candidate.data = [] ∨
      normalizeNameForMatch pattern.data = []) :
    nameMatches candidate pattern = false := by
  rcases h with h | h <;> simp [nameMatches, h]

/-- An album title normalizing to nothing makes a scan step a no-op. -/
theorem albumScanStep_fixed_of_empty_norm (root : List FsEntry)
    (albumTitle : String) (h : normalizeNameForMatch albumTitle.data = [])
    (acc : List (List String)) (dirPath : List String) :
    albumScanStep root albumTitle acc dirPath = acc := by
  unfold albumScanStep
  cases childrenAt root dirPath with
  | none => rfl
  | some cs =>
      apply foldl_fixed
      intro b child hchild
      cases child with
      | file n => rfl
      | dir n cs2 => simp [nameMatches_of_empty_norm n albumTitle (Or.inr h)]

/-- An album title normalizing to nothing matches no album directory. -/
theorem findAlbumDirectories_empty_norm (root : List FsEntry)
    (artistName albumTitle : String)
    (h : normalizeNameForMatch albumTitle.data = []) :
    findAlbumDirectories root artistName albumTitle = [] := by
  unfold findAlbumDirectories
  by_cases ht : albumTitle = ""
  · rw [if_pos ht]
  · rw [if_neg ht]
    apply foldl_fixed
    intro b dirPath hmem
    exact albumScanStep_fixed_of_empty_norm root albumTitle h b dirPath

/-- A track title normalizing to nothing matches no track file. -/
theorem findTrackFiles_empty_norm (root : List FsEntry) (albumDir : List String)
    (trackTitle : String) (h : normalizeNameForMatch trackTitle.data = []) :
    findTrackFiles root albumDir trackTitle = [] := by
  unfold findTrackFiles
  by_cases ht : trackTitle = ""
  · rw [if_pos ht]
  · rw [if_neg ht]
    cases childrenAt root albumDir with
    | none => rfl
    | some cs => simp [h]

/-- The last character of a non-empty Python-stripped list is not
whitespace. -/
theorem pyStrip_getLast_not_ws (l : List Char) (c : Char)
    (h : (pyStrip l).getLast? = some c) : Char.isWhitespace c = false := by
  unfold pyStrip at h
  rw [getLast_of_rev] at h
  exact head_dropWhile_false _ _ _ h

/-- Python stripping is the identity on a list whose first and last characters
are not whitespace. -/
theorem pyStrip_eq_self (l : List Char)
    (h1 : ∀ c, l.head? = some c → Char.isWhitespace c = false)
    (h2 : ∀ c, l.getLast? = some c → Char.isWhitespace c = false) :
    pyStrip l = l := by
  cases l with
  | nil => rfl
  | cons a t =>
      have ha : Char.isWhitespace a = false := h1 a rfl
      unfold pyStrip
      have hd : List.dropWhile Char.isWhitespace (a :: t) = a :: t := by
        simp [List.dropWhile_cons, ha]
      rw [hd]
      cases hrev : (a :: t).reverse with
      | nil => exact absurd hrev (by simp)
      | cons c r =>
          have h3 := getLast_of_rev (a :: t).reverse
          rw [List.reverse_reverse] at h3
          have hlast : (a :: t).getLast? = some c := by
            rw [h3, hrev, List.head?_cons]
          have hc : Char.isWhitespace c = false := h2 c hlast
          have hdw : List.dropWhile Char.isWhitespace (c :: r) = c :: r := by
            simp [List.dropWhile_cons, hc]
          rw [hdw, ← hrev, List.reverse_reverse]

/-- A successful `_normalize_photo_identifier` returns exactly the stripped
input, which is non-empty. -/
theorem normalizePhotoIdentifier_some (s r : String)
    (h : normalizePhotoIdentifier s = some r) :
    r.data = pyStrip s.data ∧ pyStrip s.data ≠ [] := by
  simp only [normalizePhotoIdentifier] at h
  split at h
  · cases h
  · split at h
    · cases h
    · split at h
      · cases h
      · injection h with hr
        subst hr
        rename_i h1 h2 h3
        exact ⟨rfl, h2⟩

/-!
## Claims
-/

/-- C2, counterexample: the containment check `_is_within_music_dir` accepts a
candidate equal to the music root itself, contrary to the claim that only
strict descendants are accepted. -/
theorem C2_counterexample :
    isWithinMusicDir ["data", "music"] ["data", "music"] = true := by decide

/-- C2, amended: the shared containment check accepts exactly the
descendants-or-self of the root (so the root itself passes it); the artist
deletion routine separately rejects a target resolving to the root, so any
path it deletes passes the containment check and resolves strictly below the
root. -/
theorem C2_containment_and_artist_guard :
    (∀ musicDir : List String, isWithinMusicDir musicDir musicDir = true) ∧
    (∀ (musicDir : List String) (artistName : String) (p : List String),
      deleteArtistDirectory musicDir artistName = .deleted p →
      isWithinMusicDir musicDir p = true ∧
      resolvePath p ≠ resolvePath musicDir) := by
  constructor
  · intro musicDir
    unfold isWithinMusicDir
    exact isPrefixOf_self _
  · intro musicDir artistName p h
    simp only [deleteArtistDirectory] at h
    split at h
    · cases h
    · split at h
      · cases h
      · split at h
        · cases h
        · injection h with hp
          subst hp
          rename_i hne hpre heq
          refine ⟨?_, ?_⟩
          · unfold isWithinMusicDir
            exact of_not_not hpre
          · exact heq

/-- C2, witness: the artist-deletion guard at a concrete input. -/
theorem C2_containment_and_artist_guard_witness :
    isWithinMusicDir ["data", "music"] ["data", "music", "Owl City"] = true ∧
    resolvePath ["data", "music", "Owl City"] ≠ resolvePath ["data", "music"] :=
  C2_containment_and_artist_guard.2 ["data", "music"] "Owl City"
    ["data", "music", "Owl City"] (by decide)

/-- C3, counterexample: an album/track fetch job that exits successfully
publishes no message at all, contrary to the claim that every job publishes a
success confirmation on success. -/
theorem C3_counterexample :
    runDownload .album "90210" (.exited 0) = [] := by decide

/-- C3, amended: both job kinds publish exactly one error message identifying
the entry and the exit code or launch exception on failure; on success the
artist job publishes one success confirmation while the album/track job
publishes nothing. -/
theorem C3_job_terminal_messages :
    (∀ (artistId : String) (code : Int), code ≠ 0 →
      runArtistDownload artistId (.exited code) =
        [(.artistExitFailed artistId code, true)]) ∧
    (∀ artistId err : String,
      runArtistDownload artistId (.launchFailure err) =
        [(.artistLaunchFailed artistId err, true)]) ∧
    (∀ artistId : String,
      runArtistDownload artistId (.exited 0) =
        [(.artistCompleted artistId, false)]) ∧
    (∀ (kind : Kind) (value : String) (code : Int), code ≠ 0 →
      runDownload kind value (.exited code) =
        [(.downloadExitFailed kind value code, true)]) ∧
    (∀ (kind : Kind) (value err : String),
      runDownload kind value (.launchFailure err) =
        [(.downloadLaunchFailed kind value err, true)]) ∧
    (∀ (kind : Kind) (value : String),
      runDownload kind value (.exited 0) = []) := by
  refine ⟨?_, ?_, ?_, ?_, ?_, ?_⟩
  · intro artistId code hc
    simp [runArtistDownload, bne_iff_ne, hc]
  · intro artistId err
    simp [runArtistDownload]
  · intro artistId
    simp [runArtistDownload]
  · intro kind value code hc
    simp [runDownload, bne_iff_ne, hc]
  · intro kind value err
    simp [runDownload]
  · intro kind value
    simp [runDownload]

/-- C3, witness: the failure outcome of a concrete album job. -/
theorem C3_job_terminal_messages_witness :
    runDownload .album "90210" (.exited 2) =
      [(.downloadExitFailed .album "90210" 2, true)] :=
  C3_job_terminal_messages.2.2.2.1 .album "90210" 2 (by decide)

/-- C4, counterexample: removing at index `-1` with one stored artist row
succeeds and deletes the first row, contrary to the claim that every
out-of-range index (negative ones included) fails with `NotFound` and leaves
the row count unchanged. -/
theorem C4_counterexample :
    (removeEntry ["data", "music"] ⟨[⟨"a1", "Owl"⟩], [], []⟩ [] .artist
        (-1)).ok = true ∧
    (removeEntry ["data", "music"] ⟨[⟨"a1", "Owl"⟩], [], []⟩ [] .artist
        (-1)).store.artists.length = 0 := by
  exact ⟨by decide, by decide⟩

/-- C4, amended: an index at or beyond the row count of the kind fails with
`Entry not found.` and changes nothing, but a negative index is clamped to
zero by the SQLite `OFFSET`, so removing at a negative index behaves exactly
like removing at index 0. -/
theorem C4_remove_out_of_range :
    ∀ (musicDir : List String) (st : Store) (fs : List FsEntry) (index : Int),
      (0 ≤ index → st.artists.length ≤ index.toNat →
        removeEntry musicDir st fs .artist index =
          ⟨false, .notFound, st, fs, []⟩) ∧
      (0 ≤ index → st.albums.length ≤ index.toNat →
        removeEntry musicDir st fs .album index =
          ⟨false, .notFound, st, fs, []⟩) ∧
      (0 ≤ index → st.tracks.length ≤ index.toNat →
        removeEntry musicDir st fs .track index =
          ⟨false, .notFound, st, fs, []⟩) ∧
      (index < 0 → ∀ kind : Kind,
        removeEntry musicDir st fs kind index =
          removeEntry musicDir st fs kind 0) := by
  intro musicDir st fs index
  have hoff : 0 ≤ index → sqlOffset index = index.toNat := by
    intro h0
    simp [sqlOffset, not_lt.mpr h0]
  refine ⟨?_, ?_, ?_, ?_⟩
  · intro h0 hlen
    have hget : st.artists[sqlOffset index]? = none := by
      rw [hoff h0]
      exact List.getElem?_eq_none hlen
    simp [removeEntry, hget]
  · intro h0 hlen
    have hget : st.albums[sqlOffset index]? = none := by
      rw [hoff h0]
      exact List.getElem?_eq_none hlen
    simp [removeEntry, hget]
  · intro h0 hlen
    have hget : st.tracks[sqlOffset index]? = none := by
      rw [hoff h0]
      exact List.getElem?_eq_none hlen
    simp [removeEntry, hget]
  · intro hneg kind
    have h : sqlOffset index = sqlOffset 0 := by
      simp [sqlOffset, hneg]
    unfold removeEntry
    rw [h]

/-- C4, witness: removing at index 3 of a single-row artist store fails with
`Entry not found.` and changes nothing; removing at `-1` behaves like
removing at 0. -/
theorem C4_remove_out_of_range_witness :
    removeEntry ["data", "music"] ⟨[⟨"a1", "Owl"⟩], [], []⟩ [] .artist 3 =
      ⟨false, .notFound, ⟨[⟨"a1", "Owl"⟩], [], []⟩, [], []⟩ ∧
    removeEntry ["data", "music"] ⟨[⟨"a1", "Owl"⟩], [], []⟩ [] .artist (-1) =
      removeEntry ["data", "music"] ⟨[⟨"a1", "Owl"⟩], [], []⟩ [] .artist 0 :=
  ⟨(C4_remove_out_of_range ["data", "music"] ⟨[⟨"a1", "Owl"⟩], [], []⟩ []
      3).1 (by decide) (by decide),
    (C4_remove_out_of_range ["data", "music"] ⟨[⟨"a1", "Owl"⟩], [], []⟩ []
      (-1)).2.2.2 (by decide) .artist⟩

/-- C5, counterexample: an artist id that fails sanitization (it starts with
`#`) enqueues no job but also publishes nothing, contrary to the claim that
every kind publishes an informational message in that case. -/
theorem C5_counterexample :
    sanitizeEntryValue "#skip" = none ∧
    triggerArtistDownload "#skip" = ⟨[], []⟩ := by
  exact ⟨by decide, by decide⟩

/-- C5, amended: values failing sanitization never enqueue a job for any
kind; for album and track kinds a raw value starting with `#` additionally
publishes one informational (non-error) message, while failing artist values,
and failing album/track values not starting with `#`, publish nothing. -/
theorem C5_sanitization_gates_enqueue :
    (∀ artistId : String, sanitizeEntryValue artistId = none →
      triggerArtistDownload artistId = ⟨[], []⟩) ∧
    (∀ artistId s : String, sanitizeEntryValue artistId = some s →
      triggerArtistDownload artistId = ⟨[(.artist, s)], []⟩) ∧
    (∀ (kind : Kind) (value : String), sanitizeEntryValue value = none →
      triggerDownload kind value =
        ⟨[], if startsWithL ['#'] value.data then
              [(.entryIgnoredHash kind value, false)]
            else []⟩) ∧
    (∀ (kind : Kind) (value s : String), sanitizeEntryValue value = some s →
      triggerDownload kind value = ⟨[(kind, s)], []⟩) := by
  refine ⟨?_, ?_, ?_, ?_⟩
  · intro artistId h
    simp [triggerArtistDownload, h]
  · intro artistId s h
    simp [triggerArtistDownload, h]
  · intro kind value h
    simp only [triggerDownload, h]
    split <;> rfl
  · intro kind value s h
    simp [triggerDownload, h]

/-- C5, witness: a `#`-prefixed album value queues nothing and publishes the
informational message; a clean value queues the job. -/
theorem C5_sanitization_gates_enqueue_witness :
    triggerDownload .album "#90210" =
      ⟨[], if startsWithL ['#'] "#90210".data then
            [(.entryIgnoredHash .album "#90210", false)]
          else []⟩ ∧
    triggerDownload .track "808" = ⟨[(.track, "808")], []⟩ :=
  ⟨C5_sanitization_gates_enqueue.2.2.1 .album "#90210" (by decide),
    C5_sanitization_gates_enqueue.2.2.2 .track "808" "808" (by decide)⟩

/-- C1, counterexample: removing the album entry `(id1, X, Owl City)` while
two on-disk album directories match runs the cleanup first, and the ambiguous
cleanup failure prevents the Entry Store row deletion: the call fails and the
row is still present, contrary to the claim that the row is deleted first and
a cleanup failure never prevents it. -/
theorem C1_counterexample :
    (removeEntry ["data", "music"] ⟨[], [⟨"id1", "X", "Owl City"⟩], []⟩
        [.dir "Owl City" [.dir "X" []], .dir "Owl City Tribute" [.dir "X" []]]
        .album 0).ok = false ∧
    (removeEntry ["data", "music"] ⟨[], [⟨"id1", "X", "Owl City"⟩], []⟩
        [.dir "Owl City" [.dir "X" []], .dir "Owl City Tribute" [.dir "X" []]]
        .album 0).store = ⟨[], [⟨"id1", "X", "Owl City"⟩], []⟩ ∧
    (removeEntry ["data", "music"] ⟨[], [⟨"id1", "X", "Owl City"⟩], []⟩
        [.dir "Owl City" [.dir "X" []], .dir "Owl City Tribute" [.dir "X" []]]
        .album 0).published = [(.multipleAlbumFolders "X", true)] := by
  exact ⟨by decide, by decide, by decide⟩

/-- C1, amended: for album and track removals the media cleanup runs before
the row deletion and its messages are pushed to the mailbox; a cleanup
failure makes the removal fail and leaves the store unchanged, and only a
successful cleanup lets the row be deleted. -/
theorem C1_cleanup_gates_row_deletion :
    ∀ (musicDir : List String) (st : Store) (fs : List FsEntry) (index : Int),
      (∀ row : AlbumRow, st.albums[sqlOffset index]? = some row →
        (removeEntry musicDir st fs .album index).published =
          (removeAlbumMedia musicDir fs (pyStripS row.artist)
            (pyStripS row.title)).messages ∧
        ((removeAlbumMedia musicDir fs (pyStripS row.artist)
            (pyStripS row.title)).ok = false →
          (removeEntry musicDir st fs .album index).store = st ∧
          (removeEntry musicDir st fs .album index).ok = false) ∧
        ((removeAlbumMedia musicDir fs (pyStripS row.artist)
            (pyStripS row.title)).ok = true →
          (removeEntry musicDir st fs .album index).store.albums =
            st.albums.eraseIdx (sqlOffset index) ∧
          (removeEntry musicDir st fs .album index).ok = true)) ∧
      (∀ row : TrackRow, st.tracks[sqlOffset index]? = some row →
        (removeEntry musicDir st fs .track index).published =
          (removeTrackMedia musicDir fs (pyStripS row.artist)
            (pyStripS row.album) (pyStripS row.title)).messages ∧
        ((removeTrackMedia musicDir fs (pyStripS row.artist)
            (pyStripS row.album) (pyStripS row.title)).ok = false →
          (removeEntry musicDir st fs .track index).store = st ∧
          (removeEntry musicDir st fs .track index).ok = false) ∧
        ((removeTrackMedia musicDir fs (pyStripS row.artist)
            (pyStripS row.album) (pyStripS row.title)).ok = true →
          (removeEntry musicDir st fs .track index).store.tracks =
            st.tracks.eraseIdx (sqlOffset index) ∧
          (removeEntry musicDir st fs .track index).ok = true)) := by
  intro musicDir st fs index
  constructor
  · intro row hrow
    cases hok : (removeAlbumMedia musicDir fs (pyStripS row.artist)
        (pyStripS row.title)).ok with
    | false =>
        refine ⟨?_, fun _ => ⟨?_, ?_⟩, fun hcontra => ?_⟩
        · simp [removeEntry, hrow, hok]
        · simp [removeEntry, hrow, hok]
        · simp [removeEntry, hrow, hok]
        · simp [hok] at hcontra
    | true =>
        refine ⟨?_, fun hcontra => ?_, fun _ => ⟨?_, ?_⟩⟩
        · simp [removeEntry, hrow, hok]
        · simp [hok] at hcontra
        · simp [removeEntry, hrow, hok]
        · simp [removeEntry, hrow, hok]
  · intro row hrow
    cases hok : (removeTrackMedia musicDir fs (pyStripS row.artist)
        (pyStripS row.album) (pyStripS row.title)).ok with
    | false =>
        refine ⟨?_, fun _ => ⟨?_, ?_⟩, fun hcontra => ?_⟩
        · simp [removeEntry, hrow, hok]
        · simp [removeEntry, hrow, hok]
        · simp [removeEntry, hrow, hok]
        · simp [hok] at hcontra
    | true =>
        refine ⟨?_, fun hcontra => ?_, fun _ => ⟨?_, ?_⟩⟩
        · simp [removeEntry, hrow, hok]
        · simp [hok] at hcontra
        · simp [removeEntry, hrow, hok]
        · simp [removeEntry, hrow, hok]

/-- C1, witness: a clean single-match album removal deletes the row after a
successful cleanup. -/
theorem C1_cleanup_gates_row_deletion_witness :
    (removeEntry ["data", "music"] ⟨[], [⟨"id1", "X", "Owl City"⟩], []⟩
        [.dir "Owl City" [.dir "X" []]] .album 0).store.albums =
      ([⟨"id1", "X", "Owl City"⟩] : List AlbumRow).eraseIdx (sqlOffset 0) ∧
    (removeEntry ["data", "music"] ⟨[], [⟨"id1", "X", "Owl City"⟩], []⟩
        [.dir "Owl City" [.dir "X" []]] .album 0).ok = true :=
  ((C1_cleanup_gates_row_deletion ["data", "music"]
      ⟨[], [⟨"id1", "X", "Owl City"⟩], []⟩ [.dir "Owl City" [.dir "X" []]]
      0).1 ⟨"id1", "X", "Owl City"⟩ (by decide)).2.2 (by decide)

/-- C6: adding an id that is empty after trimming is rejected without
mutation, and after a successful add of an id a second add of the same id
fails with `already present`, mutates nothing, and leaves exactly one row
with that id. -/
theorem C6_duplicate_add_rejected :
    ∀ (st : Store) (kind : Kind) (value d1 a1 b1 d2 a2 b2 : String),
      (pyStripS value = "" →
        addEntry st kind value d1 a1 b1 = (false, .emptyValue, st)) ∧
      ((addEntry st kind value d1 a1 b1).1 = true →
        addEntry (addEntry st kind value d1 a1 b1).2.2 kind value d2 a2 b2 =
          (false, .alreadyPresent kind, (addEntry st kind value d1 a1 b1).2.2) ∧
        countId (addEntry st kind value d1 a1 b1).2.2 kind (pyStripS value) = 1) := by
  intro st kind value d1 a1 b1 d2 a2 b2
  constructor
  · intro h
    cases kind <;> simp [addEntry, h]
  · intro hsucc
    by_cases hv : pyStripS value = ""
    · exfalso
      cases kind <;> simp [addEntry, hv] at hsucc
    · cases kind with
      | artist =>
          cases hany : st.artists.any (fun r => r.id == pyStripS value) with
          | true => exfalso; simp [addEntry, hv, hany] at hsucc
          | false =>
              have hnil := filter_eq_nil_of_any_eq_false _ _ hany
              constructor
              · simp [addEntry, hv, hany, List.any_append]
              · simp [countId, addEntry, hv, hany, List.filter_append, hnil]
      | album =>
          cases hany : st.albums.any (fun r => r.id == pyStripS value) with
          | true => exfalso; simp [addEntry, hv, hany] at hsucc
          | false =>
              have hnil := filter_eq_nil_of_any_eq_false _ _ hany
              constructor
              · simp [addEntry, hv, hany, List.any_append]
              · simp [countId, addEntry, hv, hany, List.filter_append, hnil]
      | track =>
          cases hany : st.tracks.any (fun r => r.id == pyStripS value) with
          | true => exfalso; simp [addEntry, hv, hany] at hsucc
          | false =>
              have hnil := filter_eq_nil_of_any_eq_false _ _ hany
              constructor
              · simp [addEntry, hv, hany, List.any_append]
              · simp [countId, addEntry, hv, hany, List.filter_append, hnil]

/-- C6, witness: a blank id is rejected, and a duplicate add of `"808"`
fails, mutates nothing, and leaves one row. -/
theorem C6_duplicate_add_rejected_witness :
    addEntry ⟨[], [], []⟩ .track "  " "T" "A" "B" =
      (false, .emptyValue, ⟨[], [], []⟩) ∧
    addEntry (addEntry ⟨[], [], []⟩ .track "808" "T" "A" "B").2.2 .track "808"
        "T2" "A2" "B2" =
      (false, .alreadyPresent .track,
        (addEntry ⟨[], [], []⟩ .track "808" "T" "A" "B").2.2) ∧
    countId (addEntry ⟨[], [], []⟩ .track "808" "T" "A" "B").2.2 .track
        (pyStripS "808") = 1 :=
  ⟨(C6_duplicate_add_rejected ⟨[], [], []⟩ .track "  " "T" "A" "B" "T2" "A2"
      "B2").1 (by decide),
    ((C6_duplicate_add_rejected ⟨[], [], []⟩ .track "808" "T" "A" "B" "T2"
        "A2" "B2").2 (by decide)).1,
    ((C6_duplicate_add_rejected ⟨[], [], []⟩ .track "808" "T" "A" "B" "T2"
        "A2" "B2").2 (by decide)).2⟩

/-- C7: album media removal treats zero matching directories as success with
nothing deleted; a single match is deleted when the containment check passes
and refused with an error message when it fails; several matches delete
nothing, report one error message naming the ambiguous album title, and
return failure. -/
theorem C7_album_media_cases :
    ∀ (musicDir : List String) (root : List FsEntry)
      (artistName albumTitle : String),
      (findAlbumDirectories root artistName albumTitle = [] →
        removeAlbumMedia musicDir root artistName albumTitle =
          ⟨true, [], root⟩) ∧
      (∀ d, findAlbumDirectories root artistName albumTitle = [d] →
        (isWithinMusicDir musicDir (musicDir ++ d) = true →
          removeAlbumMedia musicDir root artistName albumTitle =
            ⟨true, [], removeRel root d⟩) ∧
        (isWithinMusicDir musicDir (musicDir ++ d) = false →
          removeAlbumMedia musicDir root artistName albumTitle =
            ⟨false, [(.albumOutsideMusicDir d, true)], root⟩)) ∧
      (2 ≤ (findAlbumDirectories root artistName albumTitle).length →
        removeAlbumMedia musicDir root artistName albumTitle =
          ⟨false, [(.multipleAlbumFolders albumTitle, true)], root⟩) := by
  intro musicDir root artistName albumTitle
  refine ⟨?_, ?_, ?_⟩
  · intro h
    simp [removeAlbumMedia, h]
  · intro d h
    constructor
    · intro hin
      simp [removeAlbumMedia, h, hin]
    · intro hout
      simp [removeAlbumMedia, h, hout]
  · intro hlen
    cases hfind : findAlbumDirectories root artistName albumTitle with
    | nil => rw [hfind] at hlen; simp at hlen
    | cons a t =>
        cases t with
        | nil => rw [hfind] at hlen; simp at hlen
        | cons b t2 => simp [removeAlbumMedia, hfind]

/-- C7, witness: the ambiguity scenario of the spec refuses and warns, and a
unique match is deleted. -/
theorem C7_album_media_cases_witness :
    removeAlbumMedia ["data", "music"]
      [.dir "Owl City" [.dir "X" []], .dir "Owl City Tribute" [.dir "X" []]]
      "Owl City" "X" =
      ⟨false, [(.multipleAlbumFolders "X", true)],
        [.dir "Owl City" [.dir "X" []],
          .dir "Owl City Tribute" [.dir "X" []]]⟩ ∧
    removeAlbumMedia ["data", "music"] [.dir "Owl City" [.dir "X" []]]
      "Owl City" "X" =
      ⟨true, [], removeRel [.dir "Owl City" [.dir "X" []]] ["Owl City", "X"]⟩ :=
  ⟨(C7_album_media_cases ["data", "music"]
      [.dir "Owl City" [.dir "X" []], .dir "Owl City Tribute" [.dir "X" []]]
      "Owl City" "X").2.2 (by decide),
    ((C7_album_media_cases ["data", "music"] [.dir "Owl City" [.dir "X" []]]
        "Owl City" "X").2.1 ["Owl City", "X"] (by decide)).1 (by decide)⟩

/-- C9, counterexample: the artist id `album_123` and the album id `123` are
both valid yet derive the same cache key `album_123`, contrary to the claim
that artist and album cache keys never collide. -/
theorem C9_counterexample :
    artistPhotoKey "album_123" = some "album_123" ∧
    albumPhotoKey "123" = some "album_123" := by
  exact ⟨by decide, by decide⟩

/-- C9, amended: every album cache key carries the literal `album_` prefix,
so an artist key collides with an album key only when the artist id itself
starts with `album_`; keys of artists without that prefix are distinct from
every album key. -/
theorem C9_keys_distinct_without_album_prefix :
    ∀ artistId albumId ka kb : String,
      artistPhotoKey artistId = some ka →
      albumPhotoKey albumId = some kb →
      startsWithL "album_".data ka.data = false →
      ka ≠ kb := by
  intro artistId albumId ka kb hka hkb hpre
  have hkb2 : startsWithL "album_".data kb.data = true := by
    unfold albumPhotoKey at hkb
    cases hn : normalizePhotoIdentifier albumId with
    | none => rw [hn] at hkb; cases hkb
    | some n =>
        rw [hn] at hkb
        obtain ⟨hdata, hne⟩ := normalizePhotoIdentifier_some _ _ hkb
        obtain ⟨hn1, hn2⟩ := normalizePhotoIdentifier_some _ _ hn
        have hnd : n.data ≠ [] := by rw [hn1]; exact hn2
        have hself : pyStrip ("album_".data ++ n.data) =
            "album_".data ++ n.data := by
          apply pyStrip_eq_self
          · intro c hc
            have hhead : ("album_".data ++ n.data).head? = some 'a' := rfl
            rw [hhead] at hc
            injection hc with hc2
            subst hc2
            decide
          · intro c hc
            rw [List.getLast?_append_of_ne_nil _ hnd] at hc
            rw [hn1] at hc
            exact pyStrip_getLast_not_ws _ _ hc
        have hkbd : kb.data = "album_".data ++ n.data := by
          rw [hdata]
          exact hself
        rw [hkbd]
        unfold startsWithL
        exact isPrefixOf_append_self _ _
  intro hcontra
  rw [hcontra] at hpre
  rw [hkb2] at hpre
  cases hpre

/-- C9, witness: a plain artist id and the same string used as an album id
produce distinct keys. -/
theorem C9_keys_distinct_without_album_prefix_witness :
    artistPhotoKey "qobuz-1" = some "qobuz-1" ∧
    albumPhotoKey "qobuz-1" = some "album_qobuz-1" ∧
    ("qobuz-1" : String) ≠ "album_qobuz-1" :=
  ⟨by decide, by decide,
    C9_keys_distinct_without_album_prefix "qobuz-1" "qobuz-1" "qobuz-1"
      "album_qobuz-1" (by decide) (by decide) (by decide)⟩

/-- C10, counterexample: the stored artist `!!!` normalizes to nothing, yet
removing the album entry `(i, Rock, !!!)` falls back to scanning the whole
music root, matches the directory `Rock` by its title, and deletes it —
contrary to the claim that such a removal matches nothing and deletes
nothing. -/
theorem C10_counterexample :
    normalizeNameForMatch "!!!".data = [] ∧
    findAlbumDirectories [.dir "Rock" []] "!!!" "Rock" = [["Rock"]] ∧
    (removeEntry ["data", "music"] ⟨[], [⟨"i", "Rock", "!!!"⟩], []⟩
        [.dir "Rock" []] .album 0).ok = true ∧
    (removeEntry ["data", "music"] ⟨[], [⟨"i", "Rock", "!!!"⟩], []⟩
        [.dir "Rock" []] .album 0).fs = [] := by
  refine ⟨by decide, by decide, by decide, by rfl⟩

/-- C10, amended: the fuzzy match fails whenever either side normalizes to
the empty string; consequently an album or track TITLE normalizing to nothing
matches no directory or file and the corresponding media removal deletes
nothing — but an artist name normalizing to nothing merely widens the album
search to the whole music root, where a matching title can still be
deleted. -/
theorem C10_empty_normalization_no_match :
    (∀ candidate pattern : String,
      normalizeNameForMatch candidate.data = [] ∨
        normalizeNameForMatch pattern.data = [] →
      nameMatches candidate pattern = false) ∧
    (∀ (root : List FsEntry) (artistName albumTitle : String),
      normalizeNameForMatch albumTitle.data = [] →
      findAlbumDirectories root artistName albumTitle = []) ∧
    (∀ (musicDir : List String) (root : List FsEntry)
        (artistName albumTitle : String),
      normalizeNameForMatch albumTitle.data = [] →
      removeAlbumMedia musicDir root artistName albumTitle =
        ⟨true, [], root⟩) ∧
    (∀ (musicDir : List String) (root : List FsEntry)
        (artistName albumTitle trackTitle : String),
      normalizeNameForMatch trackTitle.data = [] →
      (removeTrackMedia musicDir root artistName albumTitle trackTitle).fs =
        root) := by
  refine ⟨nameMatches_of_empty_norm, findAlbumDirectories_empty_norm, ?_, ?_⟩
  · intro musicDir root artistName albumTitle h
    simp [removeAlbumMedia,
      findAlbumDirectories_empty_norm root artistName albumTitle h]
  · intro musicDir root artistName albumTitle trackTitle h
    unfold removeTrackMedia
    cases hfind : findAlbumDirectories root artistName albumTitle with
    | nil => rfl
    | cons a t =>
        cases t with
        | nil =>
            by_cases hin : isWithinMusicDir musicDir (musicDir ++ a) = true
            · simp [hin, findTrackFiles_empty_norm root a trackTitle h]
            · simp [hin]
        | cons b t2 => rfl

/-- C10, witness: a punctuation-only album title deletes nothing, and a
punctuation-only track title leaves the tree unchanged. -/
theorem C10_empty_normalization_no_match_witness :
    removeAlbumMedia ["data", "music"] [.dir "Owl City" [.dir "X" []]]
      "Owl City" "!!!" = ⟨true, [], [.dir "Owl City" [.dir "X" []]]⟩ ∧
    (removeTrackMedia ["data", "music"]
        [.dir "Owl City" [.dir "Ocean Eyes" [.file "Fireflies.mp3"]]]
        "Owl City" "Ocean Eyes" "...").fs =
      [.dir "Owl City" [.dir "Ocean Eyes" [.file "Fireflies.mp3"]]] :=
  ⟨C10_empty_normalization_no_match.2.2.1 ["data", "music"]
      [.dir "Owl City" [.dir "X" []]] "Owl City" "!!!" (by decide),
    C10_empty_normalization_no_match.2.2.2 ["data", "music"]
      [.dir "Owl City" [.dir "Ocean Eyes" [.file "Fireflies.mp3"]]]
      "Owl City" "Ocean Eyes" "..." (by decide)⟩

/-- C8: `_normalize_photo_identifier` returns `none` for every input that is
empty after trimming, starts with a dot, or contains a slash, a backslash, or
a double dot — in particular for `../etc`, `a/b`, `.`, and the empty string —
and succeeds on `qobuz-123`, returning it unchanged. -/
theorem C8_normalize_identifier_contract :
    (∀ s : String, pyStrip s.data = [] → normalizePhotoIdentifier s = none) ∧
    (∀ s : String, startsWithL ['.'] s.data = true →
      normalizePhotoIdentifier s = none) ∧
    (∀ s : String, containsL s.data ['/'] = true →
      normalizePhotoIdentifier s = none) ∧
    (∀ s : String, containsL s.data ['\\'] = true →
      normalizePhotoIdentifier s = none) ∧
    (∀ s : String, containsL s.data ['.', '.'] = true →
      normalizePhotoIdentifier s = none) ∧
    normalizePhotoIdentifier "../etc" = none ∧
    normalizePhotoIdentifier "a/b" = none ∧
    normalizePhotoIdentifier "." = none ∧
    normalizePhotoIdentifier "" = none ∧
    normalizePhotoIdentifier "qobuz-123" = some "qobuz-123" := by
  refine ⟨?_, ?_, ?_, ?_, ?_, by decide, by decide, by decide, by decide,
    by decide⟩
  · intro s h
    unfold normalizePhotoIdentifier
    by_cases h0 : s.data = []
    · rw [if_pos h0]
    · rw [if_neg h0]
      simp [h]
  · intro s h
    cases hd : s.data with
    | nil => rw [hd] at h; exact absurd h (by decide)
    | cons c t =>
        rw [hd] at h
        have hc : c = '.' := by
          simp [startsWithL, List.isPrefixOf] at h
          exact h.symm
        subst hc
        obtain ⟨t2, ht2⟩ := pyStrip_cons_of_not_ws '.' t (by decide)
        unfold normalizePhotoIdentifier
        rw [hd]
        rw [if_neg (by simp : ¬(('.' :: t : List Char) = []))]
        simp [ht2, startsWithL, List.isPrefixOf]
  · intro s h
    have hmem : '/' ∈ s.data := (containsL_singleton _ _).mp h
    have hmem2 : '/' ∈ pyStrip s.data :=
      mem_pyStrip_of_mem _ _ hmem (by decide)
    have hcon : containsL (pyStrip s.data) ['/'] = true :=
      (containsL_singleton _ _).mpr hmem2
    have hne : ¬ (pyStrip s.data = []) := by
      intro hnil
      rw [hnil] at hmem2
      cases hmem2
    unfold normalizePhotoIdentifier
    by_cases h0 : s.data = []
    · rw [if_pos h0]
    · rw [if_neg h0]
      simp [hne, hcon]
  · intro s h
    have hmem : '\\' ∈ s.data := (containsL_singleton _ _).mp h
    have hmem2 : '\\' ∈ pyStrip s.data :=
      mem_pyStrip_of_mem _ _ hmem (by decide)
    have hcon : containsL (pyStrip s.data) ['\\'] = true :=
      (containsL_singleton _ _).mpr hmem2
    have hne : ¬ (pyStrip s.data = []) := by
      intro hnil
      rw [hnil] at hmem2
      cases hmem2
    unfold normalizePhotoIdentifier
    by_cases h0 : s.data = []
    · rw [if_pos h0]
    · rw [if_neg h0]
      simp [hne, hcon]
  · intro s h
    have hinf : ['.', '.'] <:+: s.data := by
      unfold containsL at h
      exact of_decide_eq_true h
    have hinf2 := pyStrip_keeps_pair '.' (by decide) s.data hinf
    have hcon : containsL (pyStrip s.data) ['.', '.'] = true :=
      containsL_of_infix _ _ hinf2
    have hne : ¬ (pyStrip s.data = []) := by
      intro hnil
      rw [hnil] at hinf2
      simpa using hinf2.length_le
    unfold normalizePhotoIdentifier
    by_cases h0 : s.data = []
    · rw [if_pos h0]
    · rw [if_neg h0]
      simp [hne, hcon]

/-- C8, witness: the rejection branches and the success branch at concrete
inputs. -/
theorem C8_normalize_identifier_contract_witness :
    normalizePhotoIdentifier "   " = none ∧
    normalizePhotoIdentifier ".hidden" = none ∧
    normalizePhotoIdentifier "x/y" = none ∧
    normalizePhotoIdentifier "a\\b" = none ∧
    normalizePhotoIdentifier "a..b" = none :=
  ⟨C8_normalize_identifier_contract.1 "   " (by decide),
    C8_normalize_identifier_contract.2.1 ".hidden" (by decide),
    C8_normalize_identifier_contract.2.2.1 "x/y" (by decide),
    C8_normalize_identifier_contract.2.2.2.1 "a\\b" (by decide),
    C8_normalize_identifier_contract.2.2.2.2.1 "a..b" (by decide)⟩

/-!
## Sanity examples

Concrete traces of the embedding, matching the testable scenarios of the
spec: the track-removal scenario deletes the matched audio file and the
then-empty album directory while leaving the artist directory intact, and
the fuzzy matcher is case- and punctuation-insensitive.
-/

example :
    removeTrackMedia ["data", "music"]
      [.dir "Owl City" [.dir "Ocean Eyes" [.file "Fireflies.mp3"]]]
      "Owl City" "Ocean Eyes" "Fireflies" =
      ⟨true, [], [.dir "Owl City" []]⟩ := by rfl

example : nameMatches "OWL-CITY" "Owl City" = true := by decide

example : nameMatches "Owl City Tribute" "Owl City" = true := by decide

example :
    deleteArtistDirectory ["data", "music"] "Owl City" =
      .deleted ["data", "music", "Owl City"] := by decide

example : deleteArtistDirectory ["data", "music"] ".." = .refusedOutside := by
  decide

end OrpheusDL
